import Mathlib

/-!
Verification of `api_client.py`: a client adapter for local LLM HTTP APIs
(providers "Ollama", "LM Studio", "Koboldcpp").

The embedding models the Python data and control flow shallowly:
  * JSON values are the inductive `Json` (numbers restricted to integers,
    which suffices for every payload shape this client inspects);
  * Python dict/list operations (`d.get`, `d[k]`, `xs[i]`, `in`, `.lower()`,
    truthiness) are modelled with their Python exception behaviour in the
    `Py` monad (`Except PyErr`);
  * `json.loads` is modelled by the executable recursive-descent `json_loads`;
  * the network is abstracted: a call's transport outcome (connection error /
    HTTP error status raised by `raise_for_status` / response body or lines)
    is an explicit input to each operation;
  * the streaming generator is modelled by a function from the list of
    response lines to the list of yielded fragments together with how the
    sequence ended (normally, or by an uncaught Python exception).
-/

/-- JSON values; numbers are restricted to integers (every JSON literal this
client produces or inspects is integer-free or uses integers only). -/
inductive Json : Type where
  | null : Json
  | bool (b : Bool) : Json
  | num (n : Int) : Json
  | str (s : String) : Json
  | arr (elems : List Json) : Json
  | obj (members : List (String × Json)) : Json
  deriving Repr

mutual

/-- Decidable equality for `Json` (manual: `deriving` does not handle the
nested `List` occurrences). -/
def Json.decEq : (a b : Json) → Decidable (a = b)
  | .null, .null => isTrue rfl
  | .bool a, .bool b =>
    if h : a = b then isTrue (h ▸ rfl)
    else isFalse (fun e => h (Json.bool.inj e))
  | .num a, .num b =>
    if h : a = b then isTrue (h ▸ rfl)
    else isFalse (fun e => h (Json.num.inj e))
  | .str a, .str b =>
    if h : a = b then isTrue (h ▸ rfl)
    else isFalse (fun e => h (Json.str.inj e))
  | .arr xs, .arr ys =>
    match Json.decEqList xs ys with
    | isTrue h => isTrue (h ▸ rfl)
    | isFalse h => isFalse (fun e => h (Json.arr.inj e))
  | .obj xs, .obj ys =>
    match Json.decEqMembers xs ys with
    | isTrue h => isTrue (h ▸ rfl)
    | isFalse h => isFalse (fun e => h (Json.obj.inj e))
  | .null, .bool _ | .null, .num _ | .null, .str _ | .null, .arr _ | .null, .obj _
  | .bool _, .null | .bool _, .num _ | .bool _, .str _ | .bool _, .arr _ | .bool _, .obj _
  | .num _, .null | .num _, .bool _ | .num _, .str _ | .num _, .arr _ | .num _, .obj _
  | .str _, .null | .str _, .bool _ | .str _, .num _ | .str _, .arr _ | .str _, .obj _
  | .arr _, .null | .arr _, .bool _ | .arr _, .num _ | .arr _, .str _ | .arr _, .obj _
  | .obj _, .null | .obj _, .bool _ | .obj _, .num _ | .obj _, .str _ | .obj _, .arr _ =>
    isFalse (by intro h; exact Json.noConfusion h)

/-- Decidable equality for lists of `Json`. -/
def Json.decEqList : (xs ys : List Json) → Decidable (xs = ys)
  | [], [] => isTrue rfl
  | [], _ :: _ => isFalse (by intro h; exact List.noConfusion h)
  | _ :: _, [] => isFalse (by intro h; exact List.noConfusion h)
  | x :: xs, y :: ys =>
    match Json.decEq x y, Json.decEqList xs ys with
    | isTrue h1, isTrue h2 => isTrue (by rw [h1, h2])
    | isFalse h1, _ => isFalse (fun e => h1 (List.cons.inj e).1)
    | _, isFalse h2 => isFalse (fun e => h2 (List.cons.inj e).2)

/-- Decidable equality for JSON object member lists. -/
def Json.decEqMembers : (xs ys : List (String × Json)) → Decidable (xs = ys)
  | [], [] => isTrue rfl
  | [], _ :: _ => isFalse (by intro h; exact List.noConfusion h)
  | _ :: _, [] => isFalse (by intro h; exact List.noConfusion h)
  | (k1, v1) :: xs, (k2, v2) :: ys =>
    if h1 : k1 = k2 then
      match Json.decEq v1 v2, Json.decEqMembers xs ys with
      | isTrue h2, isTrue h3 => isTrue (by rw [h1, h2, h3])
      | isFalse h2, _ => isFalse (fun e => h2 (congrArg Prod.snd (List.cons.inj e).1))
      | _, isFalse h3 => isFalse (fun e => h3 (List.cons.inj e).2)
    else isFalse (fun e => h1 (congrArg Prod.fst (List.cons.inj e).1))

end

instance : DecidableEq Json := Json.decEq

/-- Python exceptions this code can raise that are not caught by its
`except` clauses. -/
inductive PyErr : Type where
  | keyError (k : String) : PyErr
  | indexError : PyErr
  | attributeError (attr : String) : PyErr
  | typeError (msg : String) : PyErr
  deriving DecidableEq, Repr

/-- Python computations that may raise. -/
abbrev Py (α : Type) : Type := Except PyErr α

/-- Decidable equality on `Except` results, for evaluating concrete runs. -/
instance {ε α : Type} [DecidableEq ε] [DecidableEq α] : DecidableEq (Except ε α) := by
  intro a b
  cases a with
  | ok x =>
    cases b with
    | ok y =>
      exact if h : x = y then isTrue (h ▸ rfl)
        else isFalse (fun e => h (Except.ok.inj e))
    | error y => exact isFalse (fun e => Except.noConfusion e)
  | error x =>
    cases b with
    | ok y => exact isFalse (fun e => Except.noConfusion e)
    | error y =>
      exact if h : x = y then isTrue (h ▸ rfl)
        else isFalse (fun e => h (Except.error.inj e))

/-- The left brace character (written by code point to keep it out of
string literals). -/
def lbrace : Char := Char.ofNat 123

/-- The right brace character. -/
def rbrace : Char := Char.ofNat 125

/-- Python `d.get(key, default)`: attribute error on non-dicts. -/
def pyDictGet (j : Json) (key : String) (default : Json) : Py Json :=
  match j with
  | .obj kvs =>
    match kvs.find? (fun kv => kv.1 == key) with
    | some kv => .ok kv.2
    | none => .ok default
  | _ => .error (.attributeError "get")

/-- Python `d[key]` for a string key: `KeyError` when absent, `TypeError`
when the value is not a dict. -/
def pyGetItemStr (j : Json) (key : String) : Py Json :=
  match j with
  | .obj kvs =>
    match kvs.find? (fun kv => kv.1 == key) with
    | some kv => .ok kv.2
    | none => .error (.keyError key)
  | _ => .error (.typeError "indices must be integers")

/-- Python `xs[i]` for a nonnegative integer index on a JSON value. -/
def pyGetIndex (j : Json) (i : Nat) : Py Json :=
  match j with
  | .arr xs =>
    match xs.get? i with
    | some x => .ok x
    | none => .error .indexError
  | _ => .error (.typeError "not subscriptable")

/-- Python `key in j` for a string key: key membership for dicts, substring
test for strings, element equality for lists, `TypeError` otherwise. -/
def pyContainsKey (key : String) (j : Json) : Py Bool :=
  match j with
  | .obj kvs => .ok (kvs.any (fun kv => kv.1 == key))
  | .str s => .ok (decide (key.toList <:+: s.toList))
  | .arr xs => .ok (xs.any (fun x => match x with | .str t => t == key | _ => false))
  | _ => .error (.typeError "argument not iterable")

/-- Python `j == s` for a string literal `s`: false on non-strings. -/
def jsonEqStr (j : Json) (s : String) : Bool :=
  match j with
  | .str t => t == s
  | _ => false

/-- ASCII lowercasing (the model of Python `str.lower()`; every string
this client lowercases is ASCII). -/
def pyToLower (s : String) : String :=
  String.mk (s.toList.map Char.toLower)

/-- Python `j.lower()`: attribute error on non-strings. -/
def pyLower (j : Json) : Py Json :=
  match j with
  | .str s => .ok (.str (pyToLower s))
  | _ => .error (.attributeError "lower")

/-- Python truthiness of a JSON value. -/
def pyTruthy (j : Json) : Bool :=
  match j with
  | .null => false
  | .bool b => b
  | .num n => n != 0
  | .str s => !s.isEmpty
  | .arr xs => !xs.isEmpty
  | .obj kvs => !kvs.isEmpty

/-- Python iteration over a JSON value: lists yield elements, dicts yield
keys, strings yield one-character strings; other values are not iterable. -/
def pyIter (j : Json) : Py (List Json) :=
  match j with
  | .arr xs => .ok xs
  | .obj kvs => .ok (kvs.map (fun kv => Json.str kv.1))
  | .str s => .ok (s.toList.map (fun c => Json.str (String.mk [c])))
  | _ => .error (.typeError "not iterable")

/-- Short-circuiting Python `any(pred(x) for x in xs)`: an exception in an
element evaluated before the first `True` propagates. -/
def pyAny (pred : Json → Py Bool) : List Json → Py Bool
  | [] => .ok false
  | x :: xs => do
    let b ← pred x
    if b then .ok true else pyAny pred xs

/-- Python list comprehension `[f(x) for x in xs if pred(x)]`, left to
right, exceptions propagating. -/
def pyListComp (f : Json → Py Json) (pred : Json → Py Bool) : List Json → Py (List Json)
  | [] => .ok []
  | x :: xs => do
    let keep ← pred x
    if keep then
      let y ← f x
      let ys ← pyListComp f pred xs
      .ok (y :: ys)
    else
      pyListComp f pred xs

/-- Python `s.startswith(pre)`. -/
def pyStartsWith (s pre : String) : Bool :=
  pre.toList.isPrefixOf s.toList

/-- Python `s[n:]`. -/
def pyDrop (s : String) (n : Nat) : String :=
  String.mk (s.toList.drop n)

/-- Python whitespace for `str.strip()`. -/
def isPySpace (c : Char) : Bool :=
  c == ' ' || c == '\t' || c == '\n' || c == '\r' || c == '\x0b' || c == '\x0c'

/-- Python `s.strip()`. -/
def pyStrip (s : String) : String :=
  String.mk (((s.toList.dropWhile isPySpace).reverse.dropWhile isPySpace).reverse)

/-- Substring test (`needle` occurs contiguously in `hay`). -/
def strContainsSub (hay needle : String) : Bool :=
  decide (needle.toList <:+: hay.toList)

/-! ### A model of `json.loads`

A fuel-indexed recursive-descent JSON reader over the character list.
Failures carry a message (standing for Python's `json.JSONDecodeError`).
Deviation from Python: numbers with a fraction or exponent are rejected
(the model's `Json` carries integers only); no payload in this development
uses them. -/

/-- Skip JSON whitespace. -/
def jsonSkipWs (cs : List Char) : List Char :=
  cs.dropWhile (fun c => c == ' ' || c == '\t' || c == '\n' || c == '\r')

/-- Hex digit value. -/
def hexVal (c : Char) : Option Nat :=
  if '0' ≤ c ∧ c ≤ '9' then some (c.toNat - '0'.toNat)
  else if 'a' ≤ c ∧ c ≤ 'f' then some (c.toNat - 'a'.toNat + 10)
  else if 'A' ≤ c ∧ c ≤ 'F' then some (c.toNat - 'A'.toNat + 10)
  else none

/-- Read a JSON string body (after the opening quote), accumulating
characters in reverse. -/
def jsonReadString : List Char → List Char → Except String (String × List Char)
  | [], _ => .error "Unterminated string"
  | '"' :: rest, acc => .ok (String.mk acc.reverse, rest)
  | '\\' :: c :: rest, acc =>
    match c with
    | '"' => jsonReadString rest ('"' :: acc)
    | '\\' => jsonReadString rest ('\\' :: acc)
    | '/' => jsonReadString rest ('/' :: acc)
    | 'n' => jsonReadString rest ('\n' :: acc)
    | 't' => jsonReadString rest ('\t' :: acc)
    | 'r' => jsonReadString rest ('\r' :: acc)
    | 'b' => jsonReadString rest ('\x08' :: acc)
    | 'f' => jsonReadString rest ('\x0c' :: acc)
    | 'u' =>
      match rest with
      | h1 :: h2 :: h3 :: h4 :: rest' =>
        match hexVal h1, hexVal h2, hexVal h3, hexVal h4 with
        | some v1, some v2, some v3, some v4 =>
          let n := ((v1 * 16 + v2) * 16 + v3) * 16 + v4
          if n < 0xd800 ∨ (0xe000 ≤ n ∧ n < 0x110000) then
            jsonReadString rest' (Char.ofNat n :: acc)
          else .error "surrogate escapes unsupported"
        | _, _, _, _ => .error "Invalid \\uXXXX escape"
      | _ => .error "Invalid \\uXXXX escape"
    | _ => .error "Invalid escape"
  | '\\' :: [], _ => .error "Unterminated string"
  | c :: rest, acc => jsonReadString rest (c :: acc)

/-- Digits to a natural number. -/
def digitsToNat (ds : List Char) : Nat :=
  ds.foldl (fun n c => n * 10 + (c.toNat - '0'.toNat)) 0

/-- Read a JSON number (integers only; fraction/exponent rejected). -/
def jsonReadNum (cs : List Char) : Except String (Json × List Char) :=
  let (neg, cs1) := match cs with
    | '-' :: r => (true, r)
    | _ => (false, cs)
  let digits := cs1.takeWhile Char.isDigit
  let rest := cs1.dropWhile Char.isDigit
  if digits.isEmpty then .error "Expecting value"
  else
    match rest with
    | '.' :: _ => .error "non-integer numbers unsupported"
    | 'e' :: _ => .error "non-integer numbers unsupported"
    | 'E' :: _ => .error "non-integer numbers unsupported"
    | _ =>
      let n : Int := Int.ofNat (digitsToNat digits)
      .ok (.num (if neg then -n else n), rest)

mutual

/-- Read one JSON value. -/
def jsonReadVal : Nat → List Char → Except String (Json × List Char)
  | 0, _ => .error "input too deeply nested"
  | fuel + 1, cs =>
    match jsonSkipWs cs with
    | [] => .error "Expecting value"
    | 'n' :: 'u' :: 'l' :: 'l' :: rest => .ok (.null, rest)
    | 't' :: 'r' :: 'u' :: 'e' :: rest => .ok (.bool true, rest)
    | 'f' :: 'a' :: 'l' :: 's' :: 'e' :: rest => .ok (.bool false, rest)
    | '"' :: rest => do
      let (s, rest') ← jsonReadString rest []
      .ok (.str s, rest')
    | '[' :: rest =>
      (match jsonSkipWs rest with
       | ']' :: rest' => .ok (.arr [], rest')
       | _ => jsonReadElems fuel rest [])
    | c :: rest =>
      if c = lbrace then
        (match jsonSkipWs rest with
         | d :: rest' =>
           if d = rbrace then .ok (.obj [], rest')
           else jsonReadMembers fuel (d :: rest') []
         | [] => .error "Unterminated object")
      else jsonReadNum (c :: rest)

/-- Read the elements of a JSON array (after `[`, first element pending). -/
def jsonReadElems : Nat → List Char → List Json → Except String (Json × List Char)
  | 0, _, _ => .error "input too deeply nested"
  | fuel + 1, cs, acc => do
    let (v, rest) ← jsonReadVal fuel cs
    match jsonSkipWs rest with
    | ',' :: rest' => jsonReadElems fuel rest' (v :: acc)
    | ']' :: rest' => .ok (.arr (v :: acc).reverse, rest')
    | _ => .error "Expecting comma or close bracket"

/-- Read the members of a JSON object (first member pending). -/
def jsonReadMembers : Nat → List Char → List (String × Json) → Except String (Json × List Char)
  | 0, _, _ => .error "input too deeply nested"
  | fuel + 1, cs, acc =>
    match jsonSkipWs cs with
    | '"' :: rest => do
      let (k, rest1) ← jsonReadString rest []
      match jsonSkipWs rest1 with
      | ':' :: rest2 => do
        let (v, rest3) ← jsonReadVal fuel rest2
        match jsonSkipWs rest3 with
        | ',' :: rest4 => jsonReadMembers fuel rest4 ((k, v) :: acc)
        | d :: rest4 =>
          if d = rbrace then .ok (.obj ((k, v) :: acc).reverse, rest4)
          else .error "Expecting comma or close brace"
        | [] => .error "Unterminated object"
      | _ => .error "Expecting colon"
    | _ => .error "Expecting property name"

end

/-- Model of Python `json.loads`: reads one value, then requires only
whitespace to remain. -/
def json_loads (s : String) : Except String Json :=
  match jsonReadVal (s.length + 2) s.toList with
  | .error e => .error e
  | .ok (v, rest) =>
    match jsonSkipWs rest with
    | [] => .ok v
    | _ => .error "Extra data"

/-! ### `APIClient.get_available_models` -/

/-- Transport outcome of `requests.get(models_endpoint)` followed by
`raise_for_status()` and `response.json()`: either a
`requests.exceptions.RequestException` (connection failure, timeout,
non-success HTTP status, or a response body that is not JSON — `requests`
raises its `JSONDecodeError`, a `RequestException`, there), or the parsed
JSON body. -/
inductive FetchResult : Type where
  | requestException (msg : String) : FetchResult
  | ok (data : Json) : FetchResult

/-- One conjunct of the backend check:
`'owned_by' in m and m['owned_by'] == 'koboldcpp'` (short-circuiting). -/
def koboldOwnedCheck (m : Json) : Py Bool := do
  let b ← pyContainsKey "owned_by" m
  if b then
    let v ← pyGetItemStr m "owned_by"
    .ok (jsonEqStr v "koboldcpp")
  else .ok false

/-- Filter `model.get('owned_by', '').lower() != 'koboldcpp'`. -/
def notKoboldFilter (m : Json) : Py Bool := do
  let v ← pyDictGet m "owned_by" (Json.str "")
  let l ← pyLower v
  .ok (!jsonEqStr l "koboldcpp")

/-- Filter
`model.get('owned_by', '').lower() == 'koboldcpp' or 'owned_by' not in model`
(short-circuiting `or`). -/
def koboldKeepFilter (m : Json) : Py Bool := do
  let v ← pyDictGet m "owned_by" (Json.str "")
  let l ← pyLower v
  if jsonEqStr l "koboldcpp" then .ok true
  else do
    let b ← pyContainsKey "owned_by" m
    .ok (!b)

/-- The comprehension body `model['id']`. -/
def modelId (m : Json) : Py Json :=
  pyGetItemStr m "id"

/-- The wrong-backend check used for LM Studio and Ollama:
`data.get('object') == 'list' and any('owned_by' in m and`
`m['owned_by'] == 'koboldcpp' for m in data.get('data', []))`. -/
def wrongBackendCheck (data : Json) : Py Bool := do
  let objField ← pyDictGet data "object" Json.null
  if jsonEqStr objField "list" then
    let d ← pyDictGet data "data" (Json.arr [])
    let ms ← pyIter d
    pyAny koboldOwnedCheck ms
  else .ok false

/-- `APIClient.get_available_models`, as a function of the transport
outcome. A `RequestException` is caught and becomes `[]`; any other Python
exception raised while inspecting the body propagates (`.error`). -/
def get_available_models (provider : String) (fetch : FetchResult) : Py (List Json) :=
  match fetch with
  | .requestException _ => .ok []
  | .ok data =>
    if provider = "LM Studio" then do
      let wrong ← wrongBackendCheck data
      if wrong then .ok []
      else do
        let d ← pyDictGet data "data" (Json.arr [])
        let ms ← pyIter d
        pyListComp modelId notKoboldFilter ms
    else if provider = "Koboldcpp" then do
      let d ← pyDictGet data "data" (Json.arr [])
      let ms ← pyIter d
      pyListComp modelId koboldKeepFilter ms
    else if provider = "Ollama" then do
      let wrong ← wrongBackendCheck data
      if wrong then .ok []
      else do
        let d ← pyDictGet data "data" (Json.arr [])
        let ms ← pyIter d
        pyListComp modelId notKoboldFilter ms
    else .ok []

/-! ### `APIClient.generate_chat_response`: the streaming loops -/

/-- `chunk['choices'][0]['delta'].get('content', '')`. -/
def delta_content (chunk : Json) : Py Json := do
  let cs ← pyGetItemStr chunk "choices"
  let c0 ← pyGetIndex cs 0
  let d ← pyGetItemStr c0 "delta"
  pyDictGet d "content" (Json.str "")

/-- `chunk['message'].get('content', '')` (the Ollama branch). -/
def message_content (chunk : Json) : Py Json := do
  let m ← pyGetItemStr chunk "message"
  pyDictGet m "content" (Json.str "")

/-- `chunk.get('message', {}).get('content', '')` (the raw-JSON-line
fallback branch). -/
def fallback_content (chunk : Json) : Py Json := do
  let m ← pyDictGet chunk "message" (Json.obj [])
  pyDictGet m "content" (Json.str "")

/-- The body of Koboldcpp's per-line `try`: parse the payload and extract
the delta content; `except Exception: continue` collapses every failure to
`none`. -/
def kobold_line_content (js : String) : Option Json :=
  match json_loads js with
  | .error _ => none
  | .ok chunk =>
    match delta_content chunk with
    | .ok content => some content
    | .error _ => none

/-- The Koboldcpp streaming loop (lines 83–101 of `api_client.py`):
fragments yielded from the given response lines. The inner `try` catches
every exception, so this loop always ends normally. -/
def koboldLoop : List String → List Json
  | [] => []
  | l :: rest =>
    if l = "" then koboldLoop rest
    else if pyStartsWith l "data: " then
      let js := pyStrip (pyDrop l 6)
      if js = "[DONE]" then []
      else if js = "" then koboldLoop rest
      else
        match kobold_line_content js with
        | some content =>
          if pyTruthy content then content :: koboldLoop rest
          else koboldLoop rest
        | none => koboldLoop rest
    else koboldLoop rest

/-- How the Ollama / LM Studio loop ends: normally (loop finished or
`break` on `[DONE]`), by a `json.JSONDecodeError` (caught by the outer
handler, which uses the raw text accumulated so far), or by another
uncaught Python exception. -/
inductive LoopOut : Type where
  | ended (frags : List Json) : LoopOut
  | jsonErr (frags : List Json) (emsg : String) (raw : String) : LoopOut
  | pyErr (frags : List Json) (e : PyErr) : LoopOut

/-- Prepend a yielded fragment to a loop outcome. -/
def LoopOut.push (c : Json) : LoopOut → LoopOut
  | .ended fs => .ended (c :: fs)
  | .jsonErr fs e r => .jsonErr (c :: fs) e r
  | .pyErr fs e => .pyErr (c :: fs) e

/-- `if self.provider == "LM Studio": choices path else: # Ollama message
path` (lines 114–117). -/
def main_extract (provider : String) (chunk : Json) : Py Json :=
  if provider = "LM Studio" then delta_content chunk else message_content chunk

/-- The Ollama / LM Studio streaming loop (lines 102–124 of
`api_client.py`), threading `raw_response_for_debugging`. -/
def mainLoop (provider : String) : List String → String → LoopOut
  | [], _ => .ended []
  | l :: rest, raw =>
    if l = "" then mainLoop provider rest raw
    else
      let raw' := raw ++ l ++ "\n"
      if pyStartsWith l "data: " then
        let js := pyStrip (pyDrop l 6)
        if js = "[DONE]" then .ended []
        else if js = "" then mainLoop provider rest raw'
        else
          match json_loads js with
          | .error e => .jsonErr [] e raw'
          | .ok chunk =>
            match main_extract provider chunk with
            | .error e => .pyErr [] e
            | .ok content =>
              if pyTruthy content then (mainLoop provider rest raw').push content
              else mainLoop provider rest raw'
      else if strContainsSub l (String.mk [lbrace]) then
        match json_loads l with
        | .error e => .jsonErr [] e raw'
        | .ok chunk =>
          match fallback_content chunk with
          | .error e => .pyErr [] e
          | .ok content =>
            if pyTruthy content then (mainLoop provider rest raw').push content
            else mainLoop provider rest raw'
      else mainLoop provider rest raw'

/-- The fragment yielded by `except requests.exceptions.RequestException`. -/
def connection_error_fragment (e : String) : String :=
  "--- \n**API Connection Error:**\n\n`" ++ e ++ "`"

/-- The fragment yielded by `except json.JSONDecodeError` (`raw or
'Response was empty.'` picks the fallback exactly when `raw` is empty). -/
def decode_error_fragment (e : String) (raw : String) : String :=
  "--- \n**API Error: Failed to decode the server's response.**\n\n" ++
  "**Python Error:** `" ++ e ++ "`\n\n" ++
  "**Full raw response from server:**\n\n```\n" ++
  (if raw = "" then "Response was empty." else raw) ++ "\n```"

/-- Transport outcome of `requests.post(api_endpoint, ..., stream=True)`
followed by `raise_for_status()`: a `RequestException`, or the sequence of
lines `iter_lines()` will deliver (already UTF-8 decoded). -/
inductive PostResult : Type where
  | requestException (msg : String) : PostResult
  | ok (lines : List String) : PostResult

/-- Observable behaviour of the generator: the fragments yielded in order,
and whether the sequence ends normally or by an uncaught Python
exception. -/
inductive GenResult : Type where
  | done (fragments : List Json) : GenResult
  | raised (fragments : List Json) (e : PyErr) : GenResult
  deriving DecidableEq

/-- The fragments a `GenResult` yielded. -/
def GenResult.yielded : GenResult → List Json
  | .done fs => fs
  | .raised fs _ => fs

/-- The text of a yielded fragment (every string fragment yields its
characters; the code can only yield non-strings from untyped `content`
fields, which no claim exercises). -/
def fragText : Json → String
  | .str s => s
  | _ => ""

/-- Response-consumption part of `APIClient.generate_chat_response`
(lines 79–132), as a function of the provider and the transport outcome:
the fragments the generator yields and how it ends. -/
def generate_chat_response (provider : String) (post : PostResult) : GenResult :=
  match post with
  | .requestException e => .done [Json.str (connection_error_fragment e)]
  | .ok lines =>
    if provider = "Koboldcpp" then .done (koboldLoop lines)
    else
      match mainLoop provider lines "" with
      | .ended fs => .done fs
      | .jsonErr fs e raw => .done (fs ++ [Json.str (decode_error_fragment e raw)])
      | .pyErr fs e => .raised fs e

/-! ### `APIClient.unload_model` -/

/-- Transport outcome of the unload POST plus `raise_for_status()`. -/
inductive UnloadNet : Type where
  | ok : UnloadNet
  | requestException (msg : String) : UnloadNet

/-- The dict returned by `unload_model`. -/
structure UnloadResult : Type where
  status : String
  message : Option String
  deriving DecidableEq, Repr

/-- `APIClient.unload_model` (lines 134–143): the returned record, paired
with whether a network request was issued. -/
def unload_model (provider model_name : String) (net : UnloadNet) :
    UnloadResult × Bool :=
  if provider ≠ "Ollama" then
    ({ status := "Unsupported for LM Studio and Koboldcpp", message := none }, false)
  else
    match net with
    | .ok =>
      ({ status := "success", message := some ("'" ++ model_name ++ "' unloaded.") }, true)
    | .requestException e =>
      ({ status := "error", message := some e }, true)

/-! ### Image attachment (lines 59–71 of `generate_chat_response`)

The Python code mutates the caller's last message dict in place; the
shallow embedding returns the message list as the caller observes it after
the call. `_encode_image` reads a file and base64-encodes it; the
filesystem is abstracted by the `encode` parameter. -/

/-- A chat message dict: `role`, `content`, and the optional `images` key
the Ollama branch adds. -/
structure ChatMessage : Type where
  role : String
  content : Json
  images : Option (List String) := none
  deriving DecidableEq, Repr

/-- `{"type": "text", "text": content}`. -/
def text_part (content : Json) : Json :=
  Json.obj [("type", Json.str "text"), ("text", content)]

/-- `{"type": "image_url", "image_url": {"url": "data:image/jpeg;base64," + b64}}`. -/
def image_part (b64 : String) : Json :=
  Json.obj [("type", Json.str "image_url"),
    ("image_url", Json.obj [("url", Json.str ("data:image/jpeg;base64," ++ b64))])]

/-- The image-attachment step: under
`if images and messages and messages[-1]['role'] == 'user'`, rewrite the
last message per provider; otherwise leave the list untouched. -/
def attach_images (provider : String) (encode : String → String)
    (messages : List ChatMessage) (images : List String) : List ChatMessage :=
  match messages.getLast? with
  | none => messages
  | some last =>
    if images ≠ [] ∧ last.role = "user" then
      let last' :=
        if provider = "LM Studio" ∨ provider = "Koboldcpp" then
          { last with
            content := Json.arr
              (text_part last.content :: images.map (fun p => image_part (encode p))) }
        else
          { last with images := some (images.map encode) }
      messages.dropLast ++ [last']
    else messages

/-! ### Basic lemmas about SSE line handling -/

/-- `toList` distributes over string append. -/
theorem strToList_append (a b : String) : (a ++ b).toList = a.toList ++ b.toList := by
  cases a
  cases b
  rfl

/-- A string with the SSE prefix starts with it. -/
theorem pyStartsWith_data (p : String) : pyStartsWith ("data: " ++ p) "data: " = true := by
  rw [pyStartsWith, List.isPrefixOf_iff_prefix, strToList_append]
  exact List.prefix_append _ _

/-- Dropping the SSE prefix recovers the payload. -/
theorem pyDrop_data (p : String) : pyDrop ("data: " ++ p) 6 = p := by
  cases p with
  | mk d =>
    rw [pyDrop, strToList_append]
    show String.mk (List.drop ("data: ".toList.length) ("data: ".toList ++ d)) = ⟨d⟩
    rw [List.drop_left]

/-- A line that starts with the SSE prefix is nonempty. -/
theorem startsWith_data_ne_empty {l : String} (h : pyStartsWith l "data: " = true) :
    l ≠ "" := by
  intro he
  subst he
  simp [pyStartsWith, List.isPrefixOf] at h

/-- `json_loads` rejects the empty payload. -/
theorem json_loads_empty_not_ok (c : Json) : json_loads "" ≠ .ok c := by
  intro h
  simp [json_loads, jsonReadVal, jsonSkipWs] at h

/-- `json_loads` rejects the literal `[DONE]` payload. -/
theorem json_loads_done_not_ok (c : Json) : json_loads "[DONE]" ≠ .ok c := by
  intro h
  revert h
  show json_loads "[DONE]" = Except.ok c → False
  have : json_loads "[DONE]" = .error "Expecting value" := by rfl
  rw [this]
  intro h
  exact Except.noConfusion h

/-! ### Content lines and step lemmas for the streaming loops -/

/-- The extraction the code applies to a parsed streaming chunk for each
provider identity: `choices[0].delta.content` for LM Studio and Koboldcpp,
`message.content` for every other provider (the `else: # Ollama` branch). -/
def stream_extract (provider : String) (chunk : Json) : Py Json :=
  if provider = "Koboldcpp" then delta_content chunk
  else main_extract provider chunk

/-- A well-formed SSE content line for the given provider: it carries the
`data: ` prefix, its stripped payload parses as JSON, and the provider's
extraction yields the string `w` as the line's content field. -/
def IsContentLine (provider : String) (l : String) (w : String) : Prop :=
  pyStartsWith l "data: " = true ∧
  ∃ chunk, json_loads (pyStrip (pyDrop l 6)) = .ok chunk ∧
    stream_extract provider chunk = .ok (Json.str w)

/-- The stripped payload of a content line is neither `[DONE]` nor empty. -/
theorem content_payload_ne {provider l w} (h : IsContentLine provider l w) :
    pyStrip (pyDrop l 6) ≠ "[DONE]" ∧ pyStrip (pyDrop l 6) ≠ "" := by
  obtain ⟨-, chunk, hj, -⟩ := h
  constructor
  · intro he
    rw [he] at hj
    exact json_loads_done_not_ok chunk hj
  · intro he
    rw [he] at hj
    exact json_loads_empty_not_ok chunk hj

/-- Processing a content line in the Koboldcpp loop yields its content
fragment (filtered out when empty) and continues. -/
theorem koboldLoop_cons_content {l w : String} (rest : List String)
    (h : IsContentLine "Koboldcpp" l w) :
    koboldLoop (l :: rest) =
      if w = "" then koboldLoop rest else Json.str w :: koboldLoop rest := by
  obtain ⟨hpre, chunk, hj, hx⟩ := h
  obtain ⟨hnd, hne⟩ := content_payload_ne ⟨hpre, chunk, hj, hx⟩
  rw [stream_extract, if_pos rfl] at hx
  have hk : kobold_line_content (pyStrip (pyDrop l 6)) = some (Json.str w) := by
    simp only [kobold_line_content, hj, hx]
  by_cases hw : w = ""
  · subst hw
    simp [koboldLoop, startsWith_data_ne_empty hpre, hpre, hnd, hne, hk, pyTruthy]
    rfl
  · simp [koboldLoop, startsWith_data_ne_empty hpre, hpre, hnd, hne, hk, pyTruthy,
      String.isEmpty_iff, hw]

/-- Processing a content line in the Ollama / LM Studio loop yields its
content fragment (filtered out when empty), accumulates the raw text, and
continues. -/
theorem mainLoop_cons_content {provider l w : String} (rest : List String) (raw : String)
    (hp : provider ≠ "Koboldcpp") (h : IsContentLine provider l w) :
    mainLoop provider (l :: rest) raw =
      if w = "" then mainLoop provider rest (raw ++ l ++ "\n")
      else (mainLoop provider rest (raw ++ l ++ "\n")).push (Json.str w) := by
  obtain ⟨hpre, chunk, hj, hx⟩ := h
  obtain ⟨hnd, hne⟩ := content_payload_ne ⟨hpre, chunk, hj, hx⟩
  rw [stream_extract, if_neg hp] at hx
  by_cases hw : w = ""
  · subst hw
    simp [mainLoop, startsWith_data_ne_empty hpre, hpre, hnd, hne, hj, hx, pyTruthy]
    intro hfalse
    exact absurd hfalse (by decide)
  · simp [mainLoop, startsWith_data_ne_empty hpre, hpre, hnd, hne, hj, hx, pyTruthy,
      String.isEmpty_iff, hw]

/-- The nonemptiness test Python's `if content:` applies to a string. -/
def nonEmptyStr (w : String) : Bool :=
  !(w == "")

theorem nonEmptyStr_empty : nonEmptyStr "" = false := rfl

theorem nonEmptyStr_of_ne {w : String} (h : w ≠ "") : nonEmptyStr w = true := by
  simp [nonEmptyStr, h]

/-- Prepend several fragments to a loop outcome. -/
def LoopOut.pushList (cs : List Json) (out : LoopOut) : LoopOut :=
  cs.foldr (fun c o => o.push c) out

/-- `raw_response_for_debugging` after processing the given (nonempty)
lines starting from `raw`. -/
def rawFold (raw : String) (ls : List String) : String :=
  ls.foldl (fun r l => r ++ l ++ "\n") raw

theorem pushList_ended (cs fs : List Json) :
    LoopOut.pushList cs (.ended fs) = .ended (cs ++ fs) := by
  induction cs with
  | nil => rfl
  | cons c cs ih => simp [LoopOut.pushList, List.foldr_cons] at ih ⊢; rw [ih]; rfl

theorem pushList_jsonErr (cs fs : List Json) (e raw : String) :
    LoopOut.pushList cs (.jsonErr fs e raw) = .jsonErr (cs ++ fs) e raw := by
  induction cs with
  | nil => rfl
  | cons c cs ih => simp [LoopOut.pushList, List.foldr_cons] at ih ⊢; rw [ih]; rfl

/-- The Ollama / LM Studio loop on a block of content lines yields exactly
their nonempty content fields, in order, before whatever the remaining
lines produce. -/
theorem mainLoop_append_content {provider : String} (hp : provider ≠ "Koboldcpp")
    {pre ws : List String} (h : List.Forall₂ (IsContentLine provider) pre ws) :
    ∀ (raw : String) (rest : List String),
      mainLoop provider (pre ++ rest) raw =
        LoopOut.pushList ((ws.filter nonEmptyStr).map Json.str)
          (mainLoop provider rest (rawFold raw pre)) := by
  induction h with
  | nil =>
    intro raw rest
    simp [LoopOut.pushList, rawFold]
  | @cons l w pre' ws' hlw _ ih =>
    intro raw rest
    rw [List.cons_append, mainLoop_cons_content _ _ hp hlw]
    by_cases hw : w = ""
    · subst hw
      rw [if_pos rfl, ih]
      simp [rawFold, LoopOut.pushList, List.filter_cons, nonEmptyStr_empty]
    · rw [if_neg hw, ih (raw ++ l ++ "\n") rest]
      simp [rawFold, LoopOut.pushList, List.filter_cons, nonEmptyStr_of_ne hw]

/-- The Koboldcpp loop on a list of content lines yields exactly their
nonempty content fields, in order. -/
theorem koboldLoop_content {lines ws : List String}
    (h : List.Forall₂ (IsContentLine "Koboldcpp") lines ws) :
    koboldLoop lines = (ws.filter nonEmptyStr).map Json.str := by
  induction h with
  | nil => rfl
  | @cons l w pre' ws' hlw _ ih =>
    rw [koboldLoop_cons_content _ hlw]
    by_cases hw : w = ""
    · subst hw
      simp [List.filter_cons, ih, nonEmptyStr_empty]
    · simp [List.filter_cons, hw, ih, nonEmptyStr_of_ne hw]

/-- Concatenation of a list of strings in order. -/
def concatTexts : List String → String
  | [] => ""
  | s :: rest => s ++ concatTexts rest

theorem empty_str_append (s : String) : "" ++ s = s := by
  cases s
  rfl

theorem concatTexts_filter_empty (ws : List String) :
    concatTexts (ws.filter nonEmptyStr) = concatTexts ws := by
  induction ws with
  | nil => rfl
  | cons w rest ih =>
    by_cases hw : w = ""
    · subst hw
      simp [concatTexts, List.filter_cons, ih, empty_str_append, nonEmptyStr_empty]
    · simp [concatTexts, List.filter_cons, ih, nonEmptyStr_of_ne hw]

/-! ### Claim C1: streamed fragments concatenate to the reply -/

/-- C1: for every provider, on a streaming response delivered as
well-formed SSE `data: ` lines each carrying one content word, the
generator ends normally having yielded exactly the nonempty content
fields in order, and the concatenation of all yielded fragments equals
the concatenation of the per-line content fields verbatim. -/
theorem generate_stream_concat {provider : String} {lines ws : List String}
    (hp : provider = "Ollama" ∨ provider = "LM Studio" ∨ provider = "Koboldcpp")
    (h : List.Forall₂ (IsContentLine provider) lines ws) :
    generate_chat_response provider (.ok lines) =
        .done ((ws.filter nonEmptyStr).map Json.str) ∧
      concatTexts ((generate_chat_response provider (.ok lines)).yielded.map fragText) =
        concatTexts ws := by
  have hmain : generate_chat_response provider (.ok lines) =
      .done ((ws.filter nonEmptyStr).map Json.str) := by
    by_cases hk : provider = "Koboldcpp"
    · subst hk
      have hu : generate_chat_response "Koboldcpp" (.ok lines) = .done (koboldLoop lines) := rfl
      rw [hu, koboldLoop_content h]
    · simp only [generate_chat_response, if_neg hk]
      have hm := mainLoop_append_content hk h "" []
      rw [List.append_nil] at hm
      rw [hm]
      rw [show mainLoop provider [] (rawFold "" lines) = .ended [] from rfl]
      rw [pushList_ended]
      simp
  refine ⟨hmain, ?_⟩
  rw [hmain]
  show concatTexts (((ws.filter nonEmptyStr).map Json.str).map fragText) = concatTexts ws
  rw [List.map_map]
  have hid : (fragText ∘ Json.str) = id := by
    funext s
    rfl
  rw [hid, List.map_id, concatTexts_filter_empty]

/-- Witness for C1 at a concrete Ollama stream of two one-word lines. -/
theorem generate_stream_concat_witness :
    generate_chat_response "Ollama"
        (.ok ["data: \x7b\"message\":\x7b\"content\":\"Hi \"\x7d\x7d",
              "data: \x7b\"message\":\x7b\"content\":\"there\"\x7d\x7d"]) =
        .done [Json.str "Hi ", Json.str "there"] ∧
      concatTexts ((generate_chat_response "Ollama"
        (.ok ["data: \x7b\"message\":\x7b\"content\":\"Hi \"\x7d\x7d",
              "data: \x7b\"message\":\x7b\"content\":\"there\"\x7d\x7d"])).yielded.map fragText) =
        concatTexts ["Hi ", "there"] := by
  refine @generate_stream_concat "Ollama"
    ["data: \x7b\"message\":\x7b\"content\":\"Hi \"\x7d\x7d",
     "data: \x7b\"message\":\x7b\"content\":\"there\"\x7d\x7d"]
    ["Hi ", "there"] (Or.inl rfl) ?_
  refine List.Forall₂.cons ?_ (List.Forall₂.cons ?_ List.Forall₂.nil)
  · exact ⟨by decide,
      Json.obj [("message", Json.obj [("content", Json.str "Hi ")])], by decide, by decide⟩
  · exact ⟨by decide,
      Json.obj [("message", Json.obj [("content", Json.str "there")])], by decide, by decide⟩

/-! ### Claim C7: connection failure yields one error fragment -/

/-- C7: for every provider, when the streaming POST fails with a
connection error (refusal, timeout, or HTTP error status raised by
`raise_for_status`), the generator yields exactly one fragment — which
contains the error marker — and the sequence ends; nothing is raised. -/
theorem generate_connection_error (provider e : String) :
    generate_chat_response provider (.requestException e) =
        .done [Json.str (connection_error_fragment e)] ∧
      strContainsSub (connection_error_fragment e) "API Connection Error" = true := by
  constructor
  · rfl
  · rw [strContainsSub, decide_eq_true_iff]
    refine ⟨"--- \n**".toList, (":**\n\n`" ++ e ++ "`").toList, ?_⟩
    rw [connection_error_fragment]
    rw [strToList_append, strToList_append, strToList_append, strToList_append]
    have hlit : ("--- \n**API Connection Error:**\n\n`").toList =
        "--- \n**".toList ++ "API Connection Error".toList ++ ":**\n\n`".toList := by
      decide
    rw [hlit]
    simp [List.append_assoc]

/-! ### Claim C4: a `[DONE]` line terminates fragment production -/

/-- An SSE line whose stripped payload is the literal terminator. -/
def IsDoneLine (l : String) : Prop :=
  pyStartsWith l "data: " = true ∧ pyStrip (pyDrop l 6) = "[DONE]"

theorem koboldLoop_done {d : String} (hd : IsDoneLine d) (post pre : List String) :
    koboldLoop (pre ++ d :: post) = koboldLoop (pre ++ [d]) := by
  induction pre with
  | nil =>
    obtain ⟨hpre, hstrip⟩ := hd
    simp [koboldLoop, startsWith_data_ne_empty hpre, hpre, hstrip]
  | cons l pre ih =>
    simp only [List.cons_append, koboldLoop, List.append_eq]
    rw [ih]

theorem mainLoop_done {provider d : String} (hd : IsDoneLine d) (post pre : List String) :
    ∀ raw, mainLoop provider (pre ++ d :: post) raw =
      mainLoop provider (pre ++ [d]) raw := by
  induction pre with
  | nil =>
    intro raw
    obtain ⟨hpre, hstrip⟩ := hd
    simp [mainLoop, startsWith_data_ne_empty hpre, hpre, hstrip]
  | cons l pre ih =>
    intro raw
    simp only [List.cons_append, mainLoop, List.append_eq]
    simp only [ih]

/-- C4: for every provider, once an SSE line whose payload is the literal
`[DONE]` is consumed, no further fragments are yielded — the lines after it
do not affect the generator's behaviour at all. -/
theorem generate_done_terminates (provider : String) {d : String} (pre post : List String)
    (hd : IsDoneLine d) :
    generate_chat_response provider (.ok (pre ++ d :: post)) =
      generate_chat_response provider (.ok (pre ++ [d])) := by
  by_cases hk : provider = "Koboldcpp"
  · subst hk
    have hu : ∀ ls, generate_chat_response "Koboldcpp" (.ok ls) = .done (koboldLoop ls) :=
      fun _ => rfl
    rw [hu, hu, koboldLoop_done hd post pre]
  · simp only [generate_chat_response, if_neg hk]
    rw [mainLoop_done hd post pre ""]

/-- Witness for C4: an LM Studio stream with a `[DONE]` line followed by a
further content line behaves as if the stream ended at `[DONE]`. -/
theorem generate_done_terminates_witness :
    generate_chat_response "LM Studio"
        (.ok (["junk"] ++ "data: [DONE]" :: ["data: \x7b\"choices\":[\x7b\"delta\":\x7b\"content\":\"XX\"\x7d\x7d]\x7d"])) =
      generate_chat_response "LM Studio" (.ok (["junk"] ++ ["data: [DONE]"])) :=
  generate_done_terminates "LM Studio" ["junk"]
    ["data: \x7b\"choices\":[\x7b\"delta\":\x7b\"content\":\"XX\"\x7d\x7d]\x7d"]
    ⟨by decide, by decide⟩

/-! ### Claim C6: Koboldcpp skips malformed lines -/

/-- An SSE line whose payload the Koboldcpp per-line `try` rejects: either
it is not valid JSON or it lacks the `choices[0].delta` shape. -/
def IsBadKoboldLine (l : String) : Prop :=
  pyStartsWith l "data: " = true ∧
  pyStrip (pyDrop l 6) ≠ "[DONE]" ∧ pyStrip (pyDrop l 6) ≠ "" ∧
  kobold_line_content (pyStrip (pyDrop l 6)) = none

theorem koboldLoop_skips_bad {b : String} (hb : IsBadKoboldLine b) (post pre : List String) :
    koboldLoop (pre ++ b :: post) = koboldLoop (pre ++ post) := by
  induction pre with
  | nil =>
    obtain ⟨hpre, hnd, hne, hk⟩ := hb
    simp [koboldLoop, startsWith_data_ne_empty hpre, hpre, hnd, hne, hk]
  | cons l pre ih =>
    simp only [List.cons_append, koboldLoop, List.append_eq]
    rw [ih]

/-- C6: for the Koboldcpp provider, a malformed SSE line (unparseable
JSON, or JSON lacking the `choices[0].delta` shape) is skipped without
terminating the sequence: the generator behaves exactly as if the line
were absent, so every subsequent well-formed line still yields its
fragment. -/
theorem generate_kobold_skips_malformed {b : String} (pre post : List String)
    (hb : IsBadKoboldLine b) :
    generate_chat_response "Koboldcpp" (.ok (pre ++ b :: post)) =
      generate_chat_response "Koboldcpp" (.ok (pre ++ post)) := by
  have hu : ∀ ls, generate_chat_response "Koboldcpp" (.ok ls) = .done (koboldLoop ls) :=
    fun _ => rfl
  rw [hu, hu, koboldLoop_skips_bad hb post pre]

/-- Witness for C6: a malformed line between two well-formed ones changes
nothing; the later line still yields. -/
theorem generate_kobold_skips_malformed_witness :
    generate_chat_response "Koboldcpp"
        (.ok (["data: \x7b\"choices\":[\x7b\"delta\":\x7b\"content\":\"A\"\x7d\x7d]\x7d"] ++
          "data: \x7boops" ::
          ["data: \x7b\"choices\":[\x7b\"delta\":\x7b\"content\":\"B\"\x7d\x7d]\x7d"])) =
      generate_chat_response "Koboldcpp"
        (.ok (["data: \x7b\"choices\":[\x7b\"delta\":\x7b\"content\":\"A\"\x7d\x7d]\x7d"] ++
          ["data: \x7b\"choices\":[\x7b\"delta\":\x7b\"content\":\"B\"\x7d\x7d]\x7d"])) ∧
    generate_chat_response "Koboldcpp"
        (.ok (["data: \x7b\"choices\":[\x7b\"delta\":\x7b\"content\":\"A\"\x7d\x7d]\x7d"] ++
          "data: \x7boops" ::
          ["data: \x7b\"choices\":[\x7b\"delta\":\x7b\"content\":\"B\"\x7d\x7d]\x7d"])) =
      .done [Json.str "A", Json.str "B"] :=
  ⟨generate_kobold_skips_malformed
      ["data: \x7b\"choices\":[\x7b\"delta\":\x7b\"content\":\"A\"\x7d\x7d]\x7d"]
      ["data: \x7b\"choices\":[\x7b\"delta\":\x7b\"content\":\"B\"\x7d\x7d]\x7d"]
      ⟨by decide, by decide, by decide, by decide⟩,
    by decide⟩

/-! ### Claim C5: a JSON decode failure yields one diagnostic fragment -/

/-- An SSE line whose stripped payload is a non-empty, non-`[DONE]` string
that `json.loads` rejects. -/
def IsBadJsonLine (l : String) (emsg : String) : Prop :=
  pyStartsWith l "data: " = true ∧
  pyStrip (pyDrop l 6) ≠ "[DONE]" ∧ pyStrip (pyDrop l 6) ≠ "" ∧
  json_loads (pyStrip (pyDrop l 6)) = .error emsg

theorem rawFold_concat (raw b : String) (pre : List String) :
    rawFold raw (pre ++ [b]) = rawFold raw pre ++ b ++ "\n" := by
  simp [rawFold, List.foldl_append]

theorem rawFold_concat_ne_empty (raw b : String) (pre : List String) :
    rawFold raw (pre ++ [b]) ≠ "" := by
  rw [rawFold_concat]
  intro h
  have hl := congrArg String.length h
  rw [String.length_append, String.length_append] at hl
  have h1 : ("\n").length = 1 := rfl
  have h0 : ("" : String).length = 0 := rfl
  omega

/-- The diagnostic fragment embeds the accumulated raw response verbatim
whenever it is nonempty. -/
theorem decode_error_fragment_contains_raw (e raw : String) (h : raw ≠ "") :
    strContainsSub (decode_error_fragment e raw) raw = true := by
  rw [strContainsSub, decide_eq_true_iff]
  rw [decode_error_fragment, if_neg h]
  refine ⟨("--- \n**API Error: Failed to decode the server's response.**\n\n" ++
    "**Python Error:** `" ++ e ++ "`\n\n" ++
    "**Full raw response from server:**\n\n```\n").toList, "\n```".toList, ?_⟩
  simp only [strToList_append, List.append_assoc]

/-- C5: for the Ollama and LM Studio providers, when a response line's
payload fails to parse as JSON after any number of well-formed content
lines, the generator yields the content fragments, then exactly one
diagnostic fragment — which contains the raw accumulated response text —
and the sequence ends normally (no exception escapes). -/
theorem generate_decode_error {provider b emsg : String} {pre ws : List String}
    (hp : provider = "Ollama" ∨ provider = "LM Studio")
    (h : List.Forall₂ (IsContentLine provider) pre ws)
    (hb : IsBadJsonLine b emsg) (post : List String) :
    generate_chat_response provider (.ok (pre ++ b :: post)) =
        .done ((ws.filter nonEmptyStr).map Json.str ++
          [Json.str (decode_error_fragment emsg (rawFold "" (pre ++ [b])))]) ∧
      strContainsSub (decode_error_fragment emsg (rawFold "" (pre ++ [b])))
        (rawFold "" (pre ++ [b])) = true := by
  have hk : provider ≠ "Koboldcpp" := by
    rcases hp with hp | hp <;> subst hp <;> decide
  obtain ⟨hpre, hnd, hne, hj⟩ := hb
  refine ⟨?_, decode_error_fragment_contains_raw _ _ (rawFold_concat_ne_empty "" b pre)⟩
  simp only [generate_chat_response, if_neg hk]
  rw [mainLoop_append_content hk h "" (b :: post)]
  have hbad : mainLoop provider (b :: post) (rawFold "" pre) =
      .jsonErr [] emsg (rawFold "" pre ++ b ++ "\n") := by
    simp [mainLoop, startsWith_data_ne_empty hpre, hpre, hnd, hne, hj]
  rw [hbad, pushList_jsonErr, List.append_nil, ← rawFold_concat]

/-- Witness for C5: one good LM Studio line, then an unparseable payload. -/
theorem generate_decode_error_witness :
    generate_chat_response "LM Studio"
        (.ok (["data: \x7b\"choices\":[\x7b\"delta\":\x7b\"content\":\"A\"\x7d\x7d]\x7d"] ++
          "data: \x7boops" :: [])) =
        .done ((["A"].filter nonEmptyStr).map Json.str ++
          [Json.str (decode_error_fragment "Expecting property name"
            (rawFold ""
              (["data: \x7b\"choices\":[\x7b\"delta\":\x7b\"content\":\"A\"\x7d\x7d]\x7d"] ++
                ["data: \x7boops"])))]) ∧
      strContainsSub
        (decode_error_fragment "Expecting property name"
          (rawFold ""
            (["data: \x7b\"choices\":[\x7b\"delta\":\x7b\"content\":\"A\"\x7d\x7d]\x7d"] ++
              ["data: \x7boops"])))
        (rawFold ""
          (["data: \x7b\"choices\":[\x7b\"delta\":\x7b\"content\":\"A\"\x7d\x7d]\x7d"] ++
            ["data: \x7boops"])) = true :=
  @generate_decode_error "LM Studio" "data: \x7boops" "Expecting property name"
    ["data: \x7b\"choices\":[\x7b\"delta\":\x7b\"content\":\"A\"\x7d\x7d]\x7d"] ["A"]
    (Or.inr rfl)
    (List.Forall₂.cons
      ⟨by decide,
        Json.obj [("choices", Json.arr [Json.obj [("delta",
          Json.obj [("content", Json.str "A")])]])], by decide, by decide⟩
      List.Forall₂.nil)
    ⟨by decide, by decide, by decide, by decide⟩ []

/-! ### Claim C9: `unload_model` is a no-op for non-Ollama providers -/

/-- C9: for every provider other than Ollama and every model name and
would-be transport outcome, `unload_model` returns the unsupported status
(whose text contains "Unsupported") and issues no network request. -/
theorem unload_model_unsupported (provider model_name : String) (net : UnloadNet)
    (hp : provider ≠ "Ollama") :
    (unload_model provider model_name net).1.status =
        "Unsupported for LM Studio and Koboldcpp" ∧
      strContainsSub (unload_model provider model_name net).1.status "Unsupported" = true ∧
      (unload_model provider model_name net).2 = false := by
  rw [unload_model.eq_def, if_pos hp]
  refine ⟨rfl, ?_, rfl⟩
  decide

/-- Witness for C9 at provider LM Studio. -/
theorem unload_model_unsupported_witness :
    (unload_model "LM Studio" "some-model" .ok).1.status =
        "Unsupported for LM Studio and Koboldcpp" ∧
      strContainsSub (unload_model "LM Studio" "some-model" .ok).1.status "Unsupported" = true ∧
      (unload_model "LM Studio" "some-model" .ok).2 = false :=
  unload_model_unsupported "LM Studio" "some-model" .ok (by decide)

/-! ### Claim C10: image attachment rewrites the caller's last message -/

/-- The rewritten last message in the LM Studio / Koboldcpp branch. -/
def multipart_last (last : ChatMessage) (encode : String → String)
    (images : List String) : ChatMessage :=
  { last with
    content := Json.arr (text_part last.content :: images.map (fun p => image_part (encode p))) }

/-- The rewritten last message in the Ollama branch. -/
def ollama_last (last : ChatMessage) (encode : String → String)
    (images : List String) : ChatMessage :=
  { last with images := some (images.map encode) }

/-- C10: with a nonempty image list and a nonempty message list whose last
message has role `user`, the last message is rewritten in place — its
content becomes a multi-part list for LM Studio/Koboldcpp, or it gains an
`images` key for Ollama — while all earlier messages are untouched; when
the last role is not `user`, the messages are left unchanged and the
images are ignored. -/
theorem attach_images_spec (provider : String) (encode : String → String)
    (messages : List ChatMessage) (images : List String) (last : ChatMessage)
    (_hp : provider = "Ollama" ∨ provider = "LM Studio" ∨ provider = "Koboldcpp")
    (him : images ≠ []) (hm : messages.getLast? = some last) :
    (last.role = "user" →
      (attach_images provider encode messages images).dropLast = messages.dropLast ∧
      ∃ updated, (attach_images provider encode messages images).getLast? = some updated ∧
        updated.role = last.role ∧
        (if provider = "LM Studio" ∨ provider = "Koboldcpp" then
          updated.content = Json.arr
              (text_part last.content :: images.map (fun p => image_part (encode p))) ∧
            updated.images = last.images
        else
          updated.content = last.content ∧
            updated.images = some (images.map encode))) ∧
    (last.role ≠ "user" →
      attach_images provider encode messages images = messages) := by
  have hunfold : attach_images provider encode messages images =
      if images ≠ [] ∧ last.role = "user" then
        messages.dropLast ++
          [if provider = "LM Studio" ∨ provider = "Koboldcpp" then
            multipart_last last encode images else ollama_last last encode images]
      else messages := by
    rw [attach_images.eq_def, hm]
    rfl
  constructor
  · intro hrole
    rw [hunfold, if_pos ⟨him, hrole⟩]
    refine ⟨List.dropLast_concat, ?_⟩
    by_cases hlk : provider = "LM Studio" ∨ provider = "Koboldcpp"
    · simp only [if_pos hlk]
      exact ⟨_, List.getLast?_concat _, rfl, rfl, rfl⟩
    · simp only [if_neg hlk]
      exact ⟨_, List.getLast?_concat _, rfl, rfl, rfl⟩
  · intro hrole
    rw [hunfold, if_neg (fun hc => hrole hc.2)]

/-- Witness for C10: Ollama provider, one user message, one image. -/
theorem attach_images_spec_witness :
    (((⟨"user", Json.str "hi", none⟩ : ChatMessage)).role = "user" →
      (attach_images "Ollama" (fun s => s)
          [⟨"user", Json.str "hi", none⟩] ["img.jpg"]).dropLast =
        ([⟨"user", Json.str "hi", none⟩] : List ChatMessage).dropLast ∧
      ∃ updated, (attach_images "Ollama" (fun s => s)
          [⟨"user", Json.str "hi", none⟩] ["img.jpg"]).getLast? = some updated ∧
        updated.role = (⟨"user", Json.str "hi", none⟩ : ChatMessage).role ∧
        (if ("Ollama" : String) = "LM Studio" ∨ ("Ollama" : String) = "Koboldcpp" then
          updated.content = Json.arr
              (text_part (Json.str "hi") ::
                (["img.jpg"] : List String).map (fun p => image_part ((fun s => s) p))) ∧
            updated.images = (⟨"user", Json.str "hi", none⟩ : ChatMessage).images
        else
          updated.content = (⟨"user", Json.str "hi", none⟩ : ChatMessage).content ∧
            updated.images = some ((["img.jpg"] : List String).map (fun s => s)))) ∧
    ((⟨"user", Json.str "hi", none⟩ : ChatMessage).role ≠ "user" →
      attach_images "Ollama" (fun s => s)
          [⟨"user", Json.str "hi", none⟩] ["img.jpg"] =
        [⟨"user", Json.str "hi", none⟩]) :=
  attach_images_spec "Ollama" (fun s => s) [⟨"user", Json.str "hi", none⟩] ["img.jpg"]
    ⟨"user", Json.str "hi", none⟩ (Or.inl rfl) (by decide) rfl

/-! ### Claims C2/C3/C8: model listing -/

/-- The test the well-formedness hypotheses place on an entry's
`owned_by` lookup result: absent, or a string that does not lowercase to
"koboldcpp". -/
def ownedByOk : Option (String × Json) → Bool
  | some kv =>
    match kv.2 with
    | .str s => pyToLower s != "koboldcpp"
    | _ => false
  | none => true

/-- A well-formed model entry that is not Koboldcpp-owned: a dict with an
`id` field whose `owned_by` field, when present, is a string whose
lowercase is not "koboldcpp". -/
def nonKoboldEntry (m : Json) : Bool :=
  match m with
  | .obj kvs =>
    (kvs.find? (fun kv => kv.1 == "id")).isSome &&
      ownedByOk (kvs.find? (fun kv => kv.1 == "owned_by"))
  | _ => false

/-- Whether an entry carries no `owned_by` field. -/
def untaggedEntry (m : Json) : Bool :=
  match m with
  | .obj kvs => (kvs.find? (fun kv => kv.1 == "owned_by")).isNone
  | _ => false

/-- The `id` field of an entry (`null` when absent; only used on entries
known to carry one). -/
def entryId (m : Json) : Json :=
  match m with
  | .obj kvs =>
    match kvs.find? (fun kv => kv.1 == "id") with
    | some kv => kv.2
    | none => Json.null
  | _ => Json.null

theorem ne_kobold_of_pyToLower {s : String} (h : pyToLower s ≠ "koboldcpp") :
    s ≠ "koboldcpp" := by
  intro he
  subst he
  exact h (by decide)

theorem nonKoboldEntry_obj {m : Json} (h : nonKoboldEntry m = true) :
    ∃ kvs, m = Json.obj kvs := by
  cases m <;> first
    | exact ⟨_, rfl⟩
    | simp [nonKoboldEntry] at h

/-- From a found `owned_by` member of a good entry, its value is a string
that does not lowercase to "koboldcpp". -/
theorem ownedByOk_some {kv : String × Json} (h : ownedByOk (some kv) = true) :
    ∃ s, kv.2 = Json.str s ∧ pyToLower s ≠ "koboldcpp" := by
  rw [ownedByOk] at h
  cases hv : kv.2 <;> rw [hv] at h <;> simp at h
  rename_i s
  exact ⟨s, rfl, h⟩

theorem koboldOwnedCheck_of_nonKobold {m : Json} (h : nonKoboldEntry m = true) :
    koboldOwnedCheck m = .ok false := by
  obtain ⟨kvs, rfl⟩ := nonKoboldEntry_obj h
  rw [nonKoboldEntry, Bool.and_eq_true] at h
  obtain ⟨-, hown⟩ := h
  rw [koboldOwnedCheck]
  cases hfind : kvs.find? (fun kv => kv.1 == "owned_by") with
  | none =>
    have hany : kvs.any (fun kv => kv.1 == "owned_by") = false := by
      rw [List.any_eq_false]
      intro kv hkv
      exact List.find?_eq_none.mp hfind kv hkv
    simp [pyContainsKey, hany, Bind.bind, Except.bind]
  | some kv =>
    have hany : kvs.any (fun kv => kv.1 == "owned_by") = true := by
      rw [List.any_eq_true]
      have hmem := List.mem_of_find?_eq_some hfind
      have hpred := List.find?_some hfind
      exact ⟨kv, hmem, hpred⟩
    rw [hfind] at hown
    obtain ⟨s, hv, hs⟩ := ownedByOk_some hown
    have hne : (s == "koboldcpp") = false :=
      beq_eq_false_iff_ne.mpr (ne_kobold_of_pyToLower hs)
    simp [pyContainsKey, hany, pyGetItemStr, hfind, hv, jsonEqStr, hne, Bind.bind, Except.bind]

theorem notKoboldFilter_of_nonKobold {m : Json} (h : nonKoboldEntry m = true) :
    notKoboldFilter m = .ok true := by
  obtain ⟨kvs, rfl⟩ := nonKoboldEntry_obj h
  rw [nonKoboldEntry, Bool.and_eq_true] at h
  obtain ⟨-, hown⟩ := h
  rw [notKoboldFilter]
  cases hfind : kvs.find? (fun kv => kv.1 == "owned_by") with
  | none =>
    simp [pyDictGet, hfind, pyLower, jsonEqStr, Bind.bind, Except.bind]
    decide
  | some kv =>
    rw [hfind] at hown
    obtain ⟨s, hv, hs⟩ := ownedByOk_some hown
    have hls : (pyToLower s == "koboldcpp") = false := beq_eq_false_iff_ne.mpr hs
    simp [pyDictGet, hfind, hv, pyLower, jsonEqStr, hls, Bind.bind, Except.bind]

theorem modelId_of_nonKobold {m : Json} (h : nonKoboldEntry m = true) :
    modelId m = .ok (entryId m) := by
  obtain ⟨kvs, rfl⟩ := nonKoboldEntry_obj h
  rw [nonKoboldEntry, Bool.and_eq_true] at h
  obtain ⟨hid, -⟩ := h
  obtain ⟨kv, hkv⟩ := Option.isSome_iff_exists.mp hid
  simp [modelId, pyGetItemStr, entryId, hkv]

theorem koboldKeepFilter_of_nonKobold {m : Json} (h : nonKoboldEntry m = true) :
    koboldKeepFilter m = .ok (untaggedEntry m) := by
  obtain ⟨kvs, rfl⟩ := nonKoboldEntry_obj h
  rw [nonKoboldEntry, Bool.and_eq_true] at h
  obtain ⟨-, hown⟩ := h
  rw [koboldKeepFilter]
  cases hfind : kvs.find? (fun kv => kv.1 == "owned_by") with
  | none =>
    have hany : kvs.any (fun kv => kv.1 == "owned_by") = false := by
      rw [List.any_eq_false]
      intro kv hkv
      exact List.find?_eq_none.mp hfind kv hkv
    have hlemp : (pyToLower "" == "koboldcpp") = false := by decide
    simp [pyDictGet, hfind, pyLower, jsonEqStr, hlemp, pyContainsKey, hany, untaggedEntry,
      Bind.bind, Except.bind]
  | some kv =>
    have hany : kvs.any (fun kv => kv.1 == "owned_by") = true := by
      rw [List.any_eq_true]
      have hmem := List.mem_of_find?_eq_some hfind
      have hpred := List.find?_some hfind
      exact ⟨kv, hmem, hpred⟩
    rw [hfind] at hown
    obtain ⟨s, hv, hs⟩ := ownedByOk_some hown
    have hls : (pyToLower s == "koboldcpp") = false := beq_eq_false_iff_ne.mpr hs
    simp [pyDictGet, hfind, hv, pyLower, jsonEqStr, hls, pyContainsKey, hany, untaggedEntry,
      Bind.bind, Except.bind]

theorem pyAny_koboldOwned_false {entries : List Json}
    (h : ∀ m ∈ entries, nonKoboldEntry m = true) :
    pyAny koboldOwnedCheck entries = .ok false := by
  induction entries with
  | nil => rfl
  | cons m rest ih =>
    have hm := koboldOwnedCheck_of_nonKobold (h m (List.mem_cons_self m rest))
    have hrest := ih (fun x hx => h x (List.mem_cons_of_mem m hx))
    simp [pyAny, hm, hrest, Bind.bind, Except.bind]

theorem pyListComp_notKobold {entries : List Json}
    (h : ∀ m ∈ entries, nonKoboldEntry m = true) :
    pyListComp modelId notKoboldFilter entries = .ok (entries.map entryId) := by
  induction entries with
  | nil => rfl
  | cons m rest ih =>
    have hf := notKoboldFilter_of_nonKobold (h m (List.mem_cons_self m rest))
    have hi := modelId_of_nonKobold (h m (List.mem_cons_self m rest))
    have hrest := ih (fun x hx => h x (List.mem_cons_of_mem m hx))
    simp [pyListComp, hf, hi, hrest, Bind.bind, Except.bind]

theorem pyListComp_koboldKeep {entries : List Json}
    (h : ∀ m ∈ entries, nonKoboldEntry m = true) :
    pyListComp modelId koboldKeepFilter entries =
      .ok ((entries.filter untaggedEntry).map entryId) := by
  induction entries with
  | nil => rfl
  | cons m rest ih =>
    have hf := koboldKeepFilter_of_nonKobold (h m (List.mem_cons_self m rest))
    have hi := modelId_of_nonKobold (h m (List.mem_cons_self m rest))
    have hrest := ih (fun x hx => h x (List.mem_cons_of_mem m hx))
    by_cases hu : untaggedEntry m = true
    · simp [pyListComp, hf, hi, hrest, hu, List.filter_cons, Bind.bind, Except.bind]
    · have hu' : untaggedEntry m = false := by
        cases he : untaggedEntry m
        · rfl
        · exact absurd he hu
      simp [pyListComp, hf, hi, hrest, hu', List.filter_cons, Bind.bind, Except.bind]

/-- A dict lookup with default on an object value always succeeds. -/
theorem pyDictGet_obj_ok (kvs : List (String × Json)) (key : String) (default : Json) :
    ∃ j, pyDictGet (Json.obj kvs) key default = .ok j := by
  rw [pyDictGet]
  cases kvs.find? (fun kv => kv.1 == key) with
  | none => exact ⟨default, rfl⟩
  | some kv => exact ⟨kv.2, rfl⟩

/-- The wrong-backend guard is false on a body whose entries are all
well-formed and not Koboldcpp-owned. -/
theorem wrongBackendCheck_false {kvs : List (String × Json)} {entries : List Json}
    (hdata : pyDictGet (Json.obj kvs) "data" (Json.arr []) = .ok (Json.arr entries))
    (he : ∀ m ∈ entries, nonKoboldEntry m = true) :
    wrongBackendCheck (Json.obj kvs) = .ok false := by
  rw [wrongBackendCheck]
  obtain ⟨j, hj⟩ := pyDictGet_obj_ok kvs "object" Json.null
  by_cases hb : jsonEqStr j "list" = true
  · simp [hj, hb, hdata, pyIter, pyAny_koboldOwned_false he, Bind.bind, Except.bind]
  · simp [hj, hb, Bind.bind, Except.bind]

/-- C2 (amended): on a well-formed listing body whose entries all carry an
`id` and are not Koboldcpp-owned, the Ollama and LM Studio providers
return exactly the entries' ids in order; the Koboldcpp provider returns
exactly the ids of the entries with no `owned_by` field (entries owned by
another backend are dropped). -/
theorem get_models_well_formed {provider : String} {kvs : List (String × Json)}
    {entries : List Json}
    (hp : provider = "Ollama" ∨ provider = "LM Studio" ∨ provider = "Koboldcpp")
    (hdata : pyDictGet (Json.obj kvs) "data" (Json.arr []) = .ok (Json.arr entries))
    (he : ∀ m ∈ entries, nonKoboldEntry m = true) :
    get_available_models provider (.ok (Json.obj kvs)) =
      .ok (if provider = "Koboldcpp" then (entries.filter untaggedEntry).map entryId
           else entries.map entryId) := by
  have hwrong := wrongBackendCheck_false hdata he
  rcases hp with hp | hp | hp <;> subst hp
  · simp [get_available_models, hwrong, hdata, pyIter, pyListComp_notKobold he,
      Bind.bind, Except.bind]
  · simp [get_available_models, hwrong, hdata, pyIter, pyListComp_notKobold he,
      Bind.bind, Except.bind]
  · simp [get_available_models, hdata, pyIter, pyListComp_koboldKeep he,
      Bind.bind, Except.bind]

/-- Witness for C2 (amended) at LM Studio with one entry owned by another
organisation. -/
theorem get_models_well_formed_witness :
    get_available_models "LM Studio"
        (.ok (Json.obj [("object", Json.str "list"),
          ("data", Json.arr [Json.obj [("id", Json.str "a"), ("owned_by", Json.str "org")]])])) =
      .ok (if ("LM Studio" : String) = "Koboldcpp" then
            (([Json.obj [("id", Json.str "a"), ("owned_by", Json.str "org")]].filter
              untaggedEntry).map entryId)
           else [Json.obj [("id", Json.str "a"), ("owned_by", Json.str "org")]].map entryId) :=
  @get_models_well_formed "LM Studio"
    [("object", Json.str "list"),
      ("data", Json.arr [Json.obj [("id", Json.str "a"), ("owned_by", Json.str "org")]])]
    [Json.obj [("id", Json.str "a"), ("owned_by", Json.str "org")]]
    (Or.inr (Or.inl rfl)) (by decide) (by decide)

/-- C2 fails as stated on the code: for the Koboldcpp provider, a
well-formed response with no Koboldcpp-owned entry does not return the
entries' `id` fields — an entry owned by another backend is dropped and
the result is empty. -/
theorem get_models_kobold_drops_foreign :
    (∀ m ∈ [Json.obj [("id", Json.str "m1"), ("owned_by", Json.str "stability-ai")]],
      nonKoboldEntry m = true) ∧
    [Json.obj [("id", Json.str "m1"), ("owned_by", Json.str "stability-ai")]].map entryId =
      [Json.str "m1"] ∧
    get_available_models "Koboldcpp"
        (.ok (Json.obj [("data", Json.arr
          [Json.obj [("id", Json.str "m1"), ("owned_by", Json.str "stability-ai")]])])) =
      .ok [] := by
  refine ⟨?_, by decide, by decide⟩
  intro m hm
  rw [List.mem_singleton] at hm
  subst hm
  decide

/-- Short-circuiting `any` over exception-free element checks is true when
some element checks true. -/
theorem pyAny_eq_true {p : Json → Py Bool} {xs : List Json}
    (hok : ∀ m ∈ xs, ∃ b, p m = .ok b)
    (hsome : ∃ m ∈ xs, p m = .ok true) :
    pyAny p xs = .ok true := by
  induction xs with
  | nil =>
    obtain ⟨m, hm, -⟩ := hsome
    exact absurd hm (List.not_mem_nil m)
  | cons m rest ih =>
    obtain ⟨b, hb⟩ := hok m (List.mem_cons_self m rest)
    cases b
    · have hrest : ∃ x ∈ rest, p x = .ok true := by
        obtain ⟨x, hx, hxt⟩ := hsome
        rcases List.mem_cons.mp hx with rfl | hx'
        · rw [hb] at hxt
          exact absurd (Except.ok.inj hxt) (by decide)
        · exact ⟨x, hx', hxt⟩
      have := ih (fun x hx => hok x (List.mem_cons_of_mem m hx)) hrest
      simp [pyAny, hb, this, Bind.bind, Except.bind]
    · simp [pyAny, hb, Bind.bind, Except.bind]

/-- C3 (amended): on a listing body whose top-level `object` field equals
"list", whose entries are all dicts, and at least one of which has
`owned_by == "koboldcpp"`, the Ollama and LM Studio providers return the
empty list. -/
theorem get_models_mixed_kobold {provider : String} {kvs : List (String × Json)}
    {entries : List Json}
    (hp : provider = "Ollama" ∨ provider = "LM Studio")
    (hobj : pyDictGet (Json.obj kvs) "object" Json.null = .ok (Json.str "list"))
    (hdata : pyDictGet (Json.obj kvs) "data" (Json.arr []) = .ok (Json.arr entries))
    (hok : ∀ m ∈ entries, ∃ b, koboldOwnedCheck m = .ok b)
    (hsome : ∃ m ∈ entries, koboldOwnedCheck m = .ok true) :
    get_available_models provider (.ok (Json.obj kvs)) = .ok [] := by
  have hwrong : wrongBackendCheck (Json.obj kvs) = .ok true := by
    rw [wrongBackendCheck]
    have hl : jsonEqStr (Json.str "list") "list" = true := by decide
    simp [hobj, hl, hdata, pyIter, pyAny_eq_true hok hsome, Bind.bind, Except.bind]
  rcases hp with hp | hp <;> subst hp <;>
    simp [get_available_models, hwrong, Bind.bind, Except.bind]

/-- Witness for C3 (amended): a flagged mixed list under the Ollama
provider yields no models. -/
theorem get_models_mixed_kobold_witness :
    get_available_models "Ollama"
        (.ok (Json.obj [("object", Json.str "list"),
          ("data", Json.arr
            [Json.obj [("id", Json.str "a"), ("owned_by", Json.str "koboldcpp")],
             Json.obj [("id", Json.str "b"), ("owned_by", Json.str "meta")]])])) =
      .ok [] :=
  @get_models_mixed_kobold "Ollama"
    [("object", Json.str "list"),
      ("data", Json.arr
        [Json.obj [("id", Json.str "a"), ("owned_by", Json.str "koboldcpp")],
         Json.obj [("id", Json.str "b"), ("owned_by", Json.str "meta")]])]
    [Json.obj [("id", Json.str "a"), ("owned_by", Json.str "koboldcpp")],
      Json.obj [("id", Json.str "b"), ("owned_by", Json.str "meta")]]
    (Or.inl rfl) (by decide) (by decide)
    (by
      intro m hm
      rcases List.mem_cons.mp hm with rfl | hm'
      · exact ⟨true, by decide⟩
      · rw [List.mem_singleton] at hm'
        subst hm'
        exact ⟨false, by decide⟩)
    ⟨Json.obj [("id", Json.str "a"), ("owned_by", Json.str "koboldcpp")],
      List.mem_cons_self _ _, by decide⟩

/-- C3 fails as stated on the code: when the response lacks the top-level
`object: "list"` field, the empty-list guard is skipped even though an
entry is owned by `koboldcpp`, and LM Studio returns the other entry's id
instead of the empty list. -/
theorem get_models_mixed_no_object_flag :
    koboldOwnedCheck (Json.obj [("id", Json.str "a"), ("owned_by", Json.str "koboldcpp")]) =
      .ok true ∧
    get_available_models "LM Studio"
        (.ok (Json.obj [("data", Json.arr
          [Json.obj [("id", Json.str "a"), ("owned_by", Json.str "koboldcpp")],
           Json.obj [("id", Json.str "b"), ("owned_by", Json.str "meta")]])])) =
      .ok [Json.str "b"] ∧
    (Except.ok [Json.str "b"] : Py (List Json)) ≠ .ok [] := by
  exact ⟨by decide, by decide, by decide⟩

/-- C8 (amended): every failure the `requests` layer reports — connection
refusal, timeout, HTTP error status, or an undecodable response body — is
caught and converted to the empty list, for every provider. -/
theorem get_models_request_failure (provider e : String) :
    get_available_models provider (.requestException e) = .ok [] := rfl

/-- C8 fails as stated on the code: a well-formed JSON body whose entry
lacks an `id` field makes `get_available_models` raise `KeyError('id')`
to the caller instead of returning the empty list. -/
theorem get_models_raises_keyerror :
    get_available_models "LM Studio"
        (.ok (Json.obj [("data", Json.arr [Json.obj [("owned_by", Json.str "meta")]])])) =
      .error (PyErr.keyError "id") := by
  decide
